import Mathlib

/-!
A shallow embedding of the `deflacue` package (cue-sheet parser and SoX-based
extraction planner) together with theorems checking its specification.

The embedding follows the Python source closely:

* `cue.py`: `_timestr_to_sec`, `_timestr_to_samples`, `_unquote`, and the
  `CueParser` class.  Python dictionaries are association lists over a value
  type `PyVal` (string, int or `None`); the parser's object graph (the global
  context, the per-track contexts and the mutable "current context" reference)
  is an explicit store of contexts addressed by allocation index, so that
  aliasing and `deepcopy` are observable.

* `deflacue.py`: `Deflacue._create_target_path`, `_sox_extract_audio`,
  `_process_cue` and `do`.  Filesystem and subprocess activity is captured as
  an effect trace over an explicit set of existing paths.

Exceptions are modelled by `Except PyErr`; `PyErr` distinguishes the Python
built-in exception kinds raised by the code from the package's own
`DeflacueError`.
-/

/-- Python values stored in the parser's dictionaries: `str`, `int` or `None`. -/
inductive PyVal where
  | str (s : String)
  | int (n : Int)
  | none
deriving DecidableEq, Repr

/-- Exception kinds raised by the embedded code.  `valueError`, `indexError`,
`keyError`, `typeError`, `attributeError` and `osError` are Python built-ins;
`deflacueError` is the package's own exception class (`deflacue.exc`). -/
inductive PyErr where
  | valueError
  | indexError
  | keyError
  | typeError
  | attributeError
  | osError
  | deflacueError
deriving DecidableEq, Repr

/-- Whether an exception is the package-defined `DeflacueError` (as opposed to
a Python built-in). -/
def PyErr.isDeflacue : PyErr → Bool
  | .deflacueError => true
  | _ => false

/-- A Python dictionary `str -> value`, as an insertion-ordered association
list with unique keys. -/
def Ctx : Type := List (String × PyVal)

instance : DecidableEq Ctx := by unfold Ctx; infer_instance

instance : Inhabited Ctx := ⟨([] : List (String × PyVal))⟩

instance : Repr Ctx := by unfold Ctx; infer_instance

/-- Dictionary lookup `d.get(k)`. -/
def dictGet? (c : Ctx) (k : String) : Option PyVal :=
  (List.find? (fun kv => kv.fst == k) c).map (fun kv => kv.snd)

/-- Dictionary subscript `d[k]`: raises `KeyError` when the key is absent. -/
def dictGetE (c : Ctx) (k : String) : Except PyErr PyVal :=
  match dictGet? c k with
  | Option.none => .error .keyError
  | some v => .ok v

/-- Dictionary assignment `d[k] = v`: replaces an existing binding in place
(keys are unique by construction), otherwise appends at the end (Python dicts
preserve insertion order). -/
def dictSet : Ctx → String → PyVal → Ctx
  | [], k, v => [(k, v)]
  | kv :: rest, k, v => if kv.fst == k then (k, v) :: rest else kv :: dictSet rest k v

/-- Python `==` on dictionaries: key sets coincide and values agree
(order-insensitive). -/
def dictBeq (a b : Ctx) : Bool :=
  List.all a (fun kv => dictGet? b kv.fst == some kv.snd) &&
  List.all b (fun kv => dictGet? a kv.fst == some kv.snd)

theorem dictGet?_dictSet_same (c : Ctx) (k : String) (v : PyVal) :
    dictGet? (dictSet c k v) k = some v := by
  induction c with
  | nil => simp [dictSet, dictGet?, List.find?]
  | cons hd tl ih =>
    by_cases hk : hd.fst = k
    · simp [dictSet, dictGet?, List.find?, hk]
    · simp only [dictSet, if_neg (by simpa using hk)]
      simpa [dictGet?, List.find?, hk] using ih

theorem dictGet?_dictSet_ne (c : Ctx) (k k' : String) (v : PyVal) (h : k ≠ k') :
    dictGet? (dictSet c k v) k' = dictGet? c k' := by
  have hbe : (k == k') = false := by simpa using h
  induction c with
  | nil => simp [dictSet, dictGet?, List.find?, hbe]
  | cons hd tl ih =>
    by_cases hk : hd.fst = k
    · simp [dictSet, dictGet?, List.find?, hk, hbe]
    · have hstep : dictSet (hd :: tl) k v = hd :: dictSet tl k v := by
        simp [dictSet, hk]
      rw [hstep]
      by_cases hk' : hd.fst = k'
      · have hb : (hd.fst == k') = true := by simpa using hk'
        simp [dictGet?, List.find?, hb]
      · have hb : (hd.fst == k') = false := by simpa using hk'
        simpa [dictGet?, List.find?, hb] using ih

instance {ε α : Type} [DecidableEq ε] [DecidableEq α] : DecidableEq (Except ε α) :=
  fun x y =>
  match x, y with
  | .ok a, .ok b =>
    if h : a = b then isTrue (by rw [h]) else isFalse (by intro hh; cases hh; exact h rfl)
  | .error a, .error b =>
    if h : a = b then isTrue (by rw [h]) else isFalse (by intro hh; cases hh; exact h rfl)
  | .ok _, .error _ => isFalse (by intro hh; cases hh)
  | .error _, .ok _ => isFalse (by intro hh; cases hh)

/-! ### Python string primitives used by `cue.py` -/

/-- Strip characters of `set` from both ends of a character list
(Python `str.strip(chars)`). -/
def trimChars (set : List Char) (l : List Char) : List Char :=
  ((l.dropWhile (fun c => c ∈ set)).reverse.dropWhile (fun c => c ∈ set)).reverse

/-- Strip whitespace from both ends (Python `str.strip()`). -/
def pyStripWs (s : String) : String :=
  String.mk (((s.data.dropWhile Char.isWhitespace).reverse.dropWhile
    Char.isWhitespace).reverse)

/-- `_unquote` from `cue.py`: `in_str.strip(' "')`. -/
def pyUnquote (s : String) : String :=
  String.mk (trimChars [' ', '"'] s.data)

/-- Split a character list at every character satisfying `p`, keeping empty
groups — the splitting discipline of Python `str.split(sep)` for a
one-character separator (`sep` given as the predicate `(· = sep)`). -/
def splitPred (p : Char → Bool) : List Char → List (List Char)
  | [] => [[]]
  | c :: rest =>
    if p c then [] :: splitPred p rest
    else
      match splitPred p rest with
      | [] => [[c]]
      | g :: gs => (c :: g) :: gs

/-- Python `s.split(sep)` for a single-character separator. -/
def pySplitOn (sep : Char) (s : String) : List String :=
  (splitPred (fun c => c = sep) s.data).map String.mk

/-- Join strings with a one-character separator (the inverse of `pySplitOn`,
used to model the remainder kept by `split(' ', 1)` and `rsplit(' ', 1)`). -/
def joinWith (sep : String) : List String → String
  | [] => ""
  | [x] => x
  | x :: rest => x ++ sep ++ joinWith sep rest

/-- Python `s.split(' ', 1)`: split at the first space.  Returns `none` when
the string contains no space, in which case a two-variable unpacking
(`command, args = line.split(' ', 1)`) raises `ValueError`. -/
def pySplit1 (s : String) : Option (String × String) :=
  match pySplitOn ' ' s with
  | [] => Option.none
  | [_] => Option.none
  | c :: rest => some (c, joinWith " " rest)

/-- Python `s.split()` with no separator: split on whitespace runs, dropping
empty fields. -/
def pySplitWs (s : String) : List String :=
  (splitPred Char.isWhitespace s.data).map String.mk |>.filter (fun t => t ≠ "")

/-- Python `s.rsplit(' ', 1)[0]`: everything before the last space, or the
whole string when it has no space. -/
def pyRsplit1First (s : String) : String :=
  match pySplitOn ' ' s with
  | [] => s
  | [_] => s
  | parts => joinWith " " parts.dropLast

/-- Value of a non-empty list of decimal digits. -/
def digitsVal (cs : List Char) : Nat :=
  cs.foldl (fun a c => a * 10 + (c.toNat - 48)) 0

/-- Helper for `pyInt?`: parse an unsigned run of digits; `none` when empty or
when some character is not a decimal digit. -/
def pyIntDigits (cs : List Char) : Option Nat :=
  match cs with
  | [] => Option.none
  | _ =>
    if cs.all Char.isDigit then some (digitsVal cs) else Option.none

/-- Python `int(s)` on a decimal string: optional surrounding whitespace, an
optional sign, then one or more digits; anything else raises `ValueError`
(returns `none` here).  Underscore digit separators and non-ASCII digits,
which CPython also accepts, are not modelled; every input exercised below is
plain ASCII. -/
def pyIntTrimmed : List Char → Option Int
  | [] => Option.none
  | c :: rest =>
    if c = '-' then (pyIntDigits rest).map (fun n => -(n : Int))
    else if c = '+' then (pyIntDigits rest).map (fun n => (n : Int))
    else (pyIntDigits (c :: rest)).map (fun n => (n : Int))

/-- Full `int(s)`: trim surrounding whitespace, then parse sign and digits. -/
def pyInt? (s : String) : Option Int :=
  pyIntTrimmed
    ((s.data.dropWhile Char.isWhitespace).reverse.dropWhile Char.isWhitespace
      |>.reverse)

/-! ### Timestamp conversion (`_timestr_to_sec`, `_timestr_to_samples`) -/

/-- The loop body of `_timestr_to_sec`: sum `int(chunk) * 60 ** i` over the
already-reversed list of groups, raising `ValueError` on a chunk that
`int()` rejects. -/
def sumChunks : List String → Nat → Except PyErr Int
  | [], _ => .ok 0
  | chunk :: rest, i =>
    match pyInt? chunk with
    | Option.none => .error .valueError
    | some v =>
      match sumChunks rest (i + 1) with
      | .error e => .error e
      | .ok r => .ok (v * (60 : Int) ^ i + r)

/-- `_timestr_to_sec`: drop the last colon group, reverse, and sum each group
scaled by `60 ** position`. -/
def timestrToSec (ts : String) : Except PyErr Int :=
  sumChunks ((pySplitOn ':' ts).dropLast.reverse) 0

/-- `_timestr_to_samples`: `full_seconds * 44100 + frames * (44100 // 75)`,
where `frames` is the last colon group. -/
def timestrToSamples (ts : String) : Except PyErr Int :=
  match timestrToSec ts with
  | .error e => .error e
  | .ok secs =>
    match pyInt? ((pySplitOn ':' ts).getLastD "") with
    | Option.none => .error .valueError
    | some frames => .ok (secs * 44100 + frames * ((44100 : Int) / 75))

example : timestrToSamples "02:03:37" = .ok (123 * 44100 + 37 * 588) := by decide
example : timestrToSamples "00:00:00" = .ok 0 := by decide
example : timestrToSamples "1:02:aa:5" = .error .valueError := by decide
example : pySplit1 "A  B" = some ("A", " B") := by decide
example : pySplitWs "  01   00:00:00 " = ["01", "00:00:00"] := by decide
example : pyRsplit1First "\"img.flac\" WAVE" = "\"img.flac\"" := by decide
example : pyUnquote " \"Foo Bar\" " = "Foo Bar" := by decide
example : pyInt? " -42 " = some (-42) := by decide

/-! ### The `CueParser` object graph

`CueParser` holds a global context dictionary, a list of track context
dictionaries, and a mutable `_current_context` reference that aliases one of
them.  To make aliasing and `deepcopy` observable, contexts live in a store
(`PState.store`) addressed by allocation index: index 0 is
`_context_global`, later indices are allocated by `cmd_track` in order, and
`_context_tracks` / `_current_context` hold indices into the store. -/

/-- ASCII lower-casing, Python `str.lower()` on the command names used here. -/
def lowerStr (s : String) : String :=
  String.mk (s.data.map Char.toLower)

/-- ASCII upper-casing, Python `str.upper()` (used by `cmd_rem`). -/
def upperStr (s : String) : String :=
  String.mk (s.data.map Char.toUpper)

/-- Python `s.startswith('"')`. -/
def startsWithQuote (s : String) : Bool :=
  match s.data with
  | c :: _ => c = '"'
  | [] => false

/-- Parser state: the store of context dictionaries (index 0 is the global
context), the indices of the track contexts in declaration order
(`_context_tracks`), and the index aliased by `_current_context`. -/
structure PState where
  store : List Ctx
  trackIds : List Nat
  currentId : Nat
deriving DecidableEq, Repr

/-- The initial global context dictionary of `CueParser.__init__`. -/
def initGlobal : Ctx :=
  [("PERFORMER", PyVal.str "Unknown"),
   ("SONGWRITER", PyVal.none),
   ("ALBUM", PyVal.str "Unknown"),
   ("GENRE", PyVal.str "Unknown"),
   ("DATE", PyVal.none),
   ("FILE", PyVal.none),
   ("COMMENT", PyVal.none)]

/-- State at the start of parsing: only the global context exists and is
current. -/
def pInit : PState :=
  { store := [initGlobal], trackIds := [], currentId := 0 }

/-- The context dictionary aliased by `_current_context`. -/
def curCtx (s : PState) : Ctx := s.store.getD s.currentId ([] : List (String × PyVal))

/-- The global context dictionary (`_context_global`). -/
def globalOf (s : PState) : Ctx := s.store.getD 0 ([] : List (String × PyVal))

/-- Overwrite the context aliased by `_current_context`. -/
def setCur (s : PState) (c : Ctx) : PState :=
  { s with store := s.store.set s.currentId c }

/-- `cmd_rem`: split the argument once on a space (`ValueError` when there is
no space), unquote the value when it starts with a double quote, and store it
under the upper-cased subcommand name in the current context. -/
def cmdRem (s : PState) (args : String) : Except PyErr PState :=
  match pySplit1 args with
  | Option.none => .error .valueError
  | some (sub, subargs) =>
    let v := if startsWithQuote subargs then pyUnquote subargs else subargs
    .ok (setCur s (dictSet (curCtx s) (upperStr sub) (PyVal.str v)))

/-- `cmd_performer`: store the unquoted argument under `PERFORMER`. -/
def cmdPerformer (s : PState) (args : String) : Except PyErr PState :=
  .ok (setCur s (dictSet (curCtx s) "PERFORMER" (PyVal.str (pyUnquote args))))

/-- `cmd_title`: in the global context (decided by Python dict value equality
`_current_context == _context_global`) store under `ALBUM`, otherwise under
`TITLE`. -/
def cmdTitle (s : PState) (args : String) : Except PyErr PState :=
  let unquoted := pyUnquote args
  if dictBeq (curCtx s) (globalOf s) then
    .ok (setCur s (dictSet (curCtx s) "ALBUM" (PyVal.str unquoted)))
  else
    .ok (setCur s (dictSet (curCtx s) "TITLE" (PyVal.str unquoted)))

/-- `cmd_file`: drop the trailing type token (`args.rsplit(' ', 1)[0]`),
unquote, and store under `FILE`. -/
def cmdFile (s : PState) (args : String) : Except PyErr PState :=
  .ok (setCur s (dictSet (curCtx s) "FILE" (PyVal.str (pyUnquote (pyRsplit1First args)))))

/-- `cmd_index`: `args.split()[1]` (`IndexError` when fewer than two tokens)
is the timestamp; store it under `INDEX` and its sample conversion under
`POS_START_SAMPLES`.  (In CPython `INDEX` is assigned before the conversion
runs; when the conversion raises, the whole `__init__` aborts, so the
intermediate assignment is unobservable and the two writes are modelled
together.) -/
def cmdIndex (s : PState) (args : String) : Except PyErr PState :=
  match (pySplitWs args).get? 1 with
  | Option.none => .error .indexError
  | some timestr =>
    match timestrToSamples timestr with
    | .error e => .error e
    | .ok n =>
      .ok (setCur s
        (dictSet (dictSet (curCtx s) "INDEX" (PyVal.str timestr))
          "POS_START_SAMPLES" (PyVal.int n)))

/-- `cmd_track`: `num, _ = args.split()` (`ValueError` unless exactly two
tokens), deep-copy the global context into a fresh store slot, append its
index to `_context_tracks`, repoint `_current_context` at it, and set
`TRACK_NUM` to `int(num)` (`ValueError` when `int` rejects `num`; the state
mutated before that point is unobservable because `__init__` aborts). -/
def cmdTrack (s : PState) (args : String) : Except PyErr PState :=
  match pySplitWs args with
  | [num, _] =>
    match pyInt? num with
    | Option.none => .error .valueError
    | some n =>
      .ok { store := s.store ++ [dictSet (globalOf s) "TRACK_NUM" (PyVal.int n)],
            trackIds := s.trackIds ++ [s.store.length],
            currentId := s.store.length }
  | _ => .error .valueError

/-- One iteration of the line loop in `CueParser.__init__`: strip the line,
skip it when blank, split once on a space (`ValueError` when that fails to
yield two parts), then dispatch on the lower-cased command name; an
unrecognized command only logs a warning and leaves the state unchanged.
`cmd_flags` is a no-op. -/
def lineStep (s : PState) (line : String) : Except PyErr PState :=
  let t := pyStripWs line
  if t = "" then .ok s
  else
    match pySplit1 t with
    | Option.none => .error .valueError
    | some (command, args) =>
      let cl := lowerStr command
      if cl = "rem" then cmdRem s args
      else if cl = "performer" then cmdPerformer s args
      else if cl = "title" then cmdTitle s args
      else if cl = "file" then cmdFile s args
      else if cl = "index" then cmdIndex s args
      else if cl = "track" then cmdTrack s args
      else if cl = "flags" then .ok s
      else .ok s

/-- The line loop of `CueParser.__init__` from a given state. -/
def runFrom (s : PState) : List String → Except PyErr PState
  | [] => .ok s
  | l :: ls =>
    match lineStep s l with
    | .error e => .error e
    | .ok s' => runFrom s' ls

/-- The list of track context dictionaries (`_context_tracks`). -/
def tracksOf (s : PState) : List Ctx :=
  s.trackIds.map (fun i => s.store.getD i ([] : List (String × PyVal)))

/-- The end-offset post-pass at the end of `CueParser.__init__`: each track's
`POS_END_SAMPLES` is the next track's `POS_START_SAMPLES`; the subscript
`tracks[idx + 1]` past the end raises `IndexError`, which is caught and
yields `None`, but a missing `POS_START_SAMPLES` key on the next track raises
`KeyError`, which is not caught. -/
def postPass : List Ctx → Except PyErr (List Ctx)
  | [] => .ok []
  | [c] => .ok [dictSet c "POS_END_SAMPLES" PyVal.none]
  | c :: c₂ :: rest =>
    match dictGet? c₂ "POS_START_SAMPLES" with
    | Option.none => .error .keyError
    | some v =>
      match postPass (c₂ :: rest) with
      | .error e => .error e
      | .ok tl => .ok (dictSet c "POS_END_SAMPLES" v :: tl)

/-- `CueParser.__init__` on a list of (already decoded) lines, together with
`get_data_global` and `get_data_tracks`: the resulting global dictionary and
track dictionaries, or the exception that parsing raises. -/
def parseLines (lines : List String) : Except PyErr (Ctx × List Ctx) :=
  match runFrom pInit lines with
  | .error e => .error e
  | .ok s =>
    match postPass (tracksOf s) with
    | .error e => .error e
    | .ok ts => .ok (globalOf s, ts)

example :
    parseLines ["PERFORMER \"Some Artist\"", "TITLE \"An Album\"",
      "FILE \"img.flac\" WAVE",
      "TRACK 01 AUDIO", "TITLE \"Song One\"", "INDEX 01 00:00:00",
      "TRACK 02 AUDIO", "TITLE \"Song Two\"", "INDEX 01 03:00:00"] =
    .ok
      ([("PERFORMER", PyVal.str "Some Artist"), ("SONGWRITER", PyVal.none),
        ("ALBUM", PyVal.str "An Album"), ("GENRE", PyVal.str "Unknown"),
        ("DATE", PyVal.none), ("FILE", PyVal.str "img.flac"),
        ("COMMENT", PyVal.none)],
       [[("PERFORMER", PyVal.str "Some Artist"), ("SONGWRITER", PyVal.none),
         ("ALBUM", PyVal.str "An Album"), ("GENRE", PyVal.str "Unknown"),
         ("DATE", PyVal.none), ("FILE", PyVal.str "img.flac"),
         ("COMMENT", PyVal.none), ("TRACK_NUM", PyVal.int 1),
         ("TITLE", PyVal.str "Song One"), ("INDEX", PyVal.str "00:00:00"),
         ("POS_START_SAMPLES", PyVal.int 0),
         ("POS_END_SAMPLES", PyVal.int (180 * 44100))],
        [("PERFORMER", PyVal.str "Some Artist"), ("SONGWRITER", PyVal.none),
         ("ALBUM", PyVal.str "An Album"), ("GENRE", PyVal.str "Unknown"),
         ("DATE", PyVal.none), ("FILE", PyVal.str "img.flac"),
         ("COMMENT", PyVal.none), ("TRACK_NUM", PyVal.int 2),
         ("TITLE", PyVal.str "Song Two"), ("INDEX", PyVal.str "03:00:00"),
         ("POS_START_SAMPLES", PyVal.int (180 * 44100)),
         ("POS_END_SAMPLES", PyVal.none)]]) := by decide

example : parseLines ["FOO"] = .error PyErr.valueError := by decide
example : parseLines ["REM DATE 1999"] =
    .ok (dictSet initGlobal "DATE" (PyVal.str "1999"), []) := by decide
example :
    parseLines ["TRACK 01 AUDIO", "INDEX 01 00:00:00", "TRACK 02 AUDIO"] =
    .error PyErr.keyError := by decide

/-! ### Claim C3: timestamp conversion -/

/-- A "numeric" colon group: non-empty and consisting of decimal digits. -/
def numericGroup (g : String) : Prop :=
  g.data ≠ [] ∧ ∀ c ∈ g.data, c.isDigit = true

instance (g : String) : Decidable (numericGroup g) := by
  unfold numericGroup; infer_instance

/-- The specification's whole-second count: sum of `digit_group[i] * 60 ^ i`
over the (already reversed, frames-dropped) groups, with digit groups read as
plain decimal numbers. -/
def specSecondsAux : List String → Nat → Int
  | [], _ => 0
  | g :: rest, i => (digitsVal g.data : Int) * (60 : Int) ^ i + specSecondsAux rest (i + 1)

/-- The specification's sample count for the colon groups `gs` of a timestamp:
`(sum of digit_group[i] * 60^i over all groups except the last) * 44100 +
last_group * (44100 / 75)` in integer arithmetic. -/
def specSamples (gs : List String) : Int :=
  specSecondsAux gs.dropLast.reverse 0 * 44100 +
    (digitsVal (gs.getLastD "").data : Int) * ((44100 : Int) / 75)

theorem dropWhile_eq_self_of_not {p : Char → Bool} {l : List Char}
    (h : ∀ c ∈ l, p c = false) : l.dropWhile p = l := by
  cases l with
  | nil => rfl
  | cons c rest => simp [List.dropWhile, h c (List.mem_cons_self c rest)]

theorem isDigit_not_ws {c : Char} (hd : c.isDigit = true) :
    c.isWhitespace = false := by
  cases hsp : c.isWhitespace
  · rfl
  · simp only [Char.isWhitespace, Bool.or_eq_true, decide_eq_true_eq] at hsp
    rcases hsp with ((h | h) | h) | h <;> (rw [h] at hd; exact absurd hd (by decide))

theorem pyInt?_numeric (g : String) (h : numericGroup g) :
    pyInt? g = some ((digitsVal g.data : Nat) : Int) := by
  obtain ⟨hne, hdig⟩ := h
  have hws : ∀ c ∈ g.data, c.isWhitespace = false := by
    intro c hc
    exact isDigit_not_ws (hdig c hc)
  have h1 : g.data.dropWhile Char.isWhitespace = g.data :=
    dropWhile_eq_self_of_not hws
  have h2 : g.data.reverse.dropWhile Char.isWhitespace = g.data.reverse :=
    dropWhile_eq_self_of_not (by intro c hc; exact hws c (List.mem_reverse.mp hc))
  unfold pyInt?
  rw [h1, h2, List.reverse_reverse]
  cases hg : g.data with
  | nil => exact absurd hg hne
  | cons c rest =>
    have hcd : c.isDigit = true := hdig c (by rw [hg]; exact List.mem_cons_self c rest)
    have hcm : ¬ c = '-' := by
      intro hh; rw [hh] at hcd; exact absurd hcd (by decide)
    have hcp : ¬ c = '+' := by
      intro hh; rw [hh] at hcd; exact absurd hcd (by decide)
    have hall : (c :: rest).all Char.isDigit = true := by
      rw [List.all_eq_true]
      intro x hx
      exact hdig x (by rw [hg]; exact hx)
    simp only [pyIntTrimmed, if_neg hcm, if_neg hcp]
    unfold pyIntDigits
    simp only [hall, if_true]
    rw [← hg]
    simp

theorem sumChunks_numeric (gs : List String) (i : Nat)
    (h : ∀ g ∈ gs, numericGroup g) :
    sumChunks gs i = .ok (specSecondsAux gs i) := by
  induction gs generalizing i with
  | nil => rfl
  | cons g rest ih =>
    have hg := pyInt?_numeric g (h g (List.mem_cons_self g rest))
    unfold sumChunks
    rw [hg, ih (i + 1) (fun x hx => h x (List.mem_cons_of_mem g hx))]
    rfl

theorem sumChunks_err (gs : List String) (i : Nat) (e : PyErr)
    (h : sumChunks gs i = .error e) : e = .valueError := by
  induction gs generalizing i with
  | nil => exact absurd h (by simp [sumChunks])
  | cons g rest ih =>
    unfold sumChunks at h
    cases hpi : pyInt? g with
    | none => rw [hpi] at h; cases h; rfl
    | some v =>
      rw [hpi] at h
      cases hrec : sumChunks rest (i + 1) with
      | error e' =>
        rw [hrec] at h
        cases h
        exact ih (i + 1) hrec
      | ok r => rw [hrec] at h; cases h

theorem splitPred_ne_nil (p : Char → Bool) (l : List Char) :
    splitPred p l ≠ [] := by
  induction l with
  | nil => simp [splitPred]
  | cons c rest ih =>
    unfold splitPred
    by_cases hc : p c
    · simp [hc]
    · simp only [if_neg hc]
      cases hsp : splitPred p rest with
      | nil => simp
      | cons g gs => simp

theorem pySplitOn_ne_nil (sep : Char) (s : String) : pySplitOn sep s ≠ [] := by
  unfold pySplitOn
  intro hh
  exact splitPred_ne_nil _ s.data (List.map_eq_nil_iff.mp hh)

/-- Claim C3: for every colon-separated timestamp whose groups are all
numeric, `_timestr_to_samples` returns exactly
`(sum of digit_group[i] * 60^i over all but the last group) * 44100 +
last_group * (44100 / 75)` in integer arithmetic. -/
theorem timestr_to_samples_spec (s : String)
    (h : ∀ g ∈ pySplitOn ':' s, numericGroup g) :
    timestrToSamples s = .ok (specSamples (pySplitOn ':' s)) := by
  have hsec : timestrToSec s =
      .ok (specSecondsAux ((pySplitOn ':' s).dropLast.reverse) 0) := by
    apply sumChunks_numeric
    intro g hg
    exact h g (List.dropLast_subset _ (List.mem_reverse.mp hg))
  have hne : pySplitOn ':' s ≠ [] := pySplitOn_ne_nil ':' s
  have hlast : (pySplitOn ':' s).getLastD "" = (pySplitOn ':' s).getLast hne := by
    rw [List.getLastD_eq_getLast?, List.getLast?_eq_getLast _ hne]
    rfl
  have hlnum : numericGroup ((pySplitOn ':' s).getLastD "") := by
    rw [hlast]; exact h _ (List.getLast_mem hne)
  have hpl := pyInt?_numeric _ hlnum
  unfold timestrToSamples
  rw [hsec, hpl]
  rfl

/-- Witness for C3 at the spec's own example: `"02:03:37"` converts to
`((2*60+3)*44100) + 37*(44100/75)` samples exactly. -/
theorem timestr_to_samples_spec_witness :
    timestrToSamples "02:03:37" =
      .ok (((2 * 60 + 3) * 44100) + 37 * ((44100 : Int) / 75)) := by
  have h := timestr_to_samples_spec "02:03:37" (by decide)
  rw [h]
  decide

/-! ### Claims C2 and C10: the end-offset post-pass -/

/-- The empty dictionary (used as an out-of-range default for `List.getD`;
every index used below is in range). -/
def emptyCtx : Ctx := ([] : List (String × PyVal))

theorem postPass_length (ts₀ ts : List Ctx) (h : postPass ts₀ = .ok ts) :
    ts.length = ts₀.length := by
  induction ts₀ generalizing ts with
  | nil => cases h; rfl
  | cons c rest ih =>
    cases rest with
    | nil => cases h; rfl
    | cons c₂ rest₂ =>
      unfold postPass at h
      cases hg : dictGet? c₂ "POS_START_SAMPLES" with
      | none => rw [hg] at h; cases h
      | some v =>
        rw [hg] at h
        cases hrec : postPass (c₂ :: rest₂) with
        | error e => rw [hrec] at h; cases h
        | ok tl =>
          rw [hrec] at h
          cases h
          simpa using ih tl hrec

theorem postPass_start_preserved (ts₀ ts : List Ctx) (h : postPass ts₀ = .ok ts)
    (i : Nat) :
    dictGet? (ts.getD i emptyCtx) "POS_START_SAMPLES" =
      dictGet? (ts₀.getD i emptyCtx) "POS_START_SAMPLES" := by
  induction ts₀ generalizing ts i with
  | nil => cases h; rfl
  | cons c rest ih =>
    cases rest with
    | nil =>
      cases h
      cases i with
      | zero =>
        simpa using
          dictGet?_dictSet_ne c "POS_END_SAMPLES" "POS_START_SAMPLES" PyVal.none
            (by decide)
      | succ j => rfl
    | cons c₂ rest₂ =>
      unfold postPass at h
      cases hg : dictGet? c₂ "POS_START_SAMPLES" with
      | none => rw [hg] at h; cases h
      | some v =>
        rw [hg] at h
        cases hrec : postPass (c₂ :: rest₂) with
        | error e => rw [hrec] at h; cases h
        | ok tl =>
          rw [hrec] at h
          cases h
          cases i with
          | zero =>
            simpa using
              dictGet?_dictSet_ne c "POS_END_SAMPLES" "POS_START_SAMPLES" v
                (by decide)
          | succ j => simpa using ih tl hrec j

theorem postPass_chain (ts₀ ts : List Ctx) (h : postPass ts₀ = .ok ts) :
    (∀ i, i + 1 < ts.length →
      dictGet? (ts.getD i emptyCtx) "POS_END_SAMPLES" =
        dictGet? (ts.getD (i + 1) emptyCtx) "POS_START_SAMPLES") ∧
    (ts ≠ [] →
      dictGet? (ts.getLastD emptyCtx) "POS_END_SAMPLES" = some PyVal.none) := by
  induction ts₀ generalizing ts with
  | nil =>
    cases h
    exact ⟨fun i hi => absurd hi (by simp), fun hne => absurd rfl hne⟩
  | cons c rest ih =>
    cases rest with
    | nil =>
      cases h
      refine ⟨fun i hi => absurd hi (by simp), fun _ => ?_⟩
      simpa using dictGet?_dictSet_same c "POS_END_SAMPLES" PyVal.none
    | cons c₂ rest₂ =>
      unfold postPass at h
      cases hg : dictGet? c₂ "POS_START_SAMPLES" with
      | none => rw [hg] at h; cases h
      | some v =>
        rw [hg] at h
        cases hrec : postPass (c₂ :: rest₂) with
        | error e => rw [hrec] at h; cases h
        | ok tl =>
          rw [hrec] at h
          cases h
          obtain ⟨ihchain, ihlast⟩ := ih tl hrec
          have htl : tl.length = rest₂.length + 1 := by
            simpa using postPass_length _ _ hrec
          have htlne : tl ≠ [] := by
            intro hh; rw [hh] at htl; simp at htl
          refine ⟨?_, ?_⟩
          · intro i hi
            cases i with
            | zero =>
              have h0 : dictGet? ((dictSet c "POS_END_SAMPLES" v :: tl).getD 0 emptyCtx)
                  "POS_END_SAMPLES" = some v := by
                simpa using dictGet?_dictSet_same c "POS_END_SAMPLES" v
              rw [h0]
              have h1 : ((dictSet c "POS_END_SAMPLES" v :: tl).getD 1 emptyCtx) =
                  tl.getD 0 emptyCtx := by simp
              rw [h1]
              have := postPass_start_preserved _ _ hrec 0
              rw [this]
              simp [hg]
            | succ j =>
              have hj : j + 1 < tl.length := by
                simpa using hi
              simpa using ihchain j hj
          · intro _
            have : (dictSet c "POS_END_SAMPLES" v :: tl).getLastD emptyCtx =
                tl.getLastD emptyCtx := by
              cases tl with
              | nil => exact absurd rfl htlne
              | cons x xs => simp [List.getLastD]
            rw [this]
            exact ihlast htlne

/-- Claim C2: for every successfully parsed sheet, each track's
`POS_END_SAMPLES` equals the next track's `POS_START_SAMPLES`, and the final
track's `POS_END_SAMPLES` is `None`. -/
theorem parse_end_offsets (lines : List String) (g : Ctx) (ts : List Ctx)
    (h : parseLines lines = .ok (g, ts)) :
    (∀ i, i + 1 < ts.length →
      dictGet? (ts.getD i emptyCtx) "POS_END_SAMPLES" =
        dictGet? (ts.getD (i + 1) emptyCtx) "POS_START_SAMPLES") ∧
    (ts ≠ [] →
      dictGet? (ts.getLastD emptyCtx) "POS_END_SAMPLES" = some PyVal.none) := by
  unfold parseLines at h
  cases hrun : runFrom pInit lines with
  | error e => rw [hrun] at h; cases h
  | ok s =>
    rw [hrun] at h
    dsimp only at h
    cases hpp : postPass (tracksOf s) with
    | error e => rw [hpp] at h; cases h
    | ok ts' =>
      rw [hpp] at h
      cases h
      exact postPass_chain _ _ hpp

/-- Witness for C2 on a concrete two-track sheet. -/
theorem parse_end_offsets_witness :
    dictGet? (([[("PERFORMER", PyVal.str "Unknown"), ("SONGWRITER", PyVal.none),
         ("ALBUM", PyVal.str "Unknown"), ("GENRE", PyVal.str "Unknown"),
         ("DATE", PyVal.none), ("FILE", PyVal.none),
         ("COMMENT", PyVal.none), ("TRACK_NUM", PyVal.int 1),
         ("INDEX", PyVal.str "00:00:00"),
         ("POS_START_SAMPLES", PyVal.int 0),
         ("POS_END_SAMPLES", PyVal.int (180 * 44100))],
        [("PERFORMER", PyVal.str "Unknown"), ("SONGWRITER", PyVal.none),
         ("ALBUM", PyVal.str "Unknown"), ("GENRE", PyVal.str "Unknown"),
         ("DATE", PyVal.none), ("FILE", PyVal.none),
         ("COMMENT", PyVal.none), ("TRACK_NUM", PyVal.int 2),
         ("INDEX", PyVal.str "03:00:00"),
         ("POS_START_SAMPLES", PyVal.int (180 * 44100)),
         ("POS_END_SAMPLES", PyVal.none)]] : List Ctx).getD 0 emptyCtx)
      "POS_END_SAMPLES" =
    dictGet? (([[("PERFORMER", PyVal.str "Unknown"), ("SONGWRITER", PyVal.none),
         ("ALBUM", PyVal.str "Unknown"), ("GENRE", PyVal.str "Unknown"),
         ("DATE", PyVal.none), ("FILE", PyVal.none),
         ("COMMENT", PyVal.none), ("TRACK_NUM", PyVal.int 1),
         ("INDEX", PyVal.str "00:00:00"),
         ("POS_START_SAMPLES", PyVal.int 0),
         ("POS_END_SAMPLES", PyVal.int (180 * 44100))],
        [("PERFORMER", PyVal.str "Unknown"), ("SONGWRITER", PyVal.none),
         ("ALBUM", PyVal.str "Unknown"), ("GENRE", PyVal.str "Unknown"),
         ("DATE", PyVal.none), ("FILE", PyVal.none),
         ("COMMENT", PyVal.none), ("TRACK_NUM", PyVal.int 2),
         ("INDEX", PyVal.str "03:00:00"),
         ("POS_START_SAMPLES", PyVal.int (180 * 44100)),
         ("POS_END_SAMPLES", PyVal.none)]] : List Ctx).getD 1 emptyCtx)
      "POS_START_SAMPLES" := by
  exact (parse_end_offsets
    ["TRACK 01 AUDIO", "INDEX 01 00:00:00", "TRACK 02 AUDIO", "INDEX 01 03:00:00"]
    initGlobal _ (by decide)).1 0 (by decide)

theorem postPass_missing_key (ts : List Ctx) (j : Nat) (h0 : 0 < j)
    (hj : j < ts.length)
    (hmiss : dictGet? (ts.getD j emptyCtx) "POS_START_SAMPLES" = Option.none) :
    postPass ts = .error PyErr.keyError := by
  induction ts generalizing j with
  | nil => simp at hj
  | cons c rest ih =>
    cases rest with
    | nil =>
      cases j with
      | zero => simp at h0
      | succ i => simp at hj
    | cons c₂ rest₂ =>
      unfold postPass
      cases hg : dictGet? c₂ "POS_START_SAMPLES" with
      | none => rfl
      | some v =>
        cases j with
        | zero => simp at h0
        | succ i =>
          cases i with
          | zero =>
            rw [show ((c :: c₂ :: rest₂).getD 1 emptyCtx) = c₂ by simp] at hmiss
            rw [hmiss] at hg
            cases hg
          | succ i₂ =>
            have hrec := ih (i₂ + 1) (by omega)
              (by simpa using hj) (by simpa using hmiss)
            rw [hrec]

/-- Claim C10: when line processing succeeds but some track other than the
first has no `POS_START_SAMPLES` (no `INDEX` command), the end-offset
post-pass — which catches only `IndexError` — raises an uncaught `KeyError`,
so `CueParser.__init__` fails with `KeyError` rather than completing or
raising a `DeflacueError`. -/
theorem parse_missing_index_keyerror (lines : List String) (s : PState) (j : Nat)
    (hrun : runFrom pInit lines = .ok s)
    (h0 : 0 < j) (hj : j < (tracksOf s).length)
    (hmiss : dictGet? ((tracksOf s).getD j emptyCtx) "POS_START_SAMPLES" =
      Option.none) :
    parseLines lines = .error PyErr.keyError := by
  unfold parseLines
  rw [hrun]
  dsimp only
  rw [postPass_missing_key (tracksOf s) j h0 hj hmiss]

/-- Witness for C10: a sheet whose second track has no `INDEX` line. -/
theorem parse_missing_index_keyerror_witness :
    parseLines ["TRACK 01 AUDIO", "INDEX 01 00:00:00", "TRACK 02 AUDIO"] =
      .error PyErr.keyError := by
  exact parse_missing_index_keyerror
    ["TRACK 01 AUDIO", "INDEX 01 00:00:00", "TRACK 02 AUDIO"]
    { store := [initGlobal,
        dictSet (dictSet (dictSet initGlobal "TRACK_NUM" (PyVal.int 1))
          "INDEX" (PyVal.str "00:00:00")) "POS_START_SAMPLES" (PyVal.int 0),
        dictSet initGlobal "TRACK_NUM" (PyVal.int 2)],
      trackIds := [1, 2], currentId := 2 }
    1 (by decide) (by decide) (by decide) (by decide)

/-! ### Claim C9: unknown commands -/

/-- The command names for which `CueParser` has a `cmd_*` handler. -/
def recognizedCmd (x : String) : Bool :=
  x == "rem" || x == "performer" || x == "title" || x == "file" ||
    x == "index" || x == "track" || x == "flags"

theorem lineStep_unknown (s : PState) (l c a : String)
    (hsplit : pySplit1 (pyStripWs l) = some (c, a))
    (hcmd : recognizedCmd (lowerStr c) = false) :
    lineStep s l = .ok s := by
  have hb : ¬ lowerStr c = "rem" ∧ ¬ lowerStr c = "performer" ∧
      ¬ lowerStr c = "title" ∧ ¬ lowerStr c = "file" ∧
      ¬ lowerStr c = "index" ∧ ¬ lowerStr c = "track" ∧
      ¬ lowerStr c = "flags" := by
    simpa [recognizedCmd, not_or, and_assoc] using hcmd
  by_cases ht : pyStripWs l = ""
  · simp [lineStep, ht]
  · unfold lineStep
    simp only [if_neg ht, hsplit]
    rw [if_neg hb.1, if_neg hb.2.1, if_neg hb.2.2.1, if_neg hb.2.2.2.1,
      if_neg hb.2.2.2.2.1, if_neg hb.2.2.2.2.2.1, if_neg hb.2.2.2.2.2.2]

theorem runFrom_cons (s : PState) (l : String) (ls : List String) :
    runFrom s (l :: ls) =
      match lineStep s l with
      | .error e => .error e
      | .ok s' => runFrom s' ls := rfl

theorem runFrom_append (s : PState) (L1 L2 : List String) :
    runFrom s (L1 ++ L2) =
      match runFrom s L1 with
      | .error e => .error e
      | .ok s' => runFrom s' L2 := by
  induction L1 generalizing s with
  | nil => rfl
  | cons l ls ih =>
    rw [List.cons_append, runFrom_cons, runFrom_cons]
    cases hstep : lineStep s l with
    | error e => rfl
    | ok s₀ =>
      dsimp only
      exact ih s₀

/-- Claim C9 (amended): a line whose stripped form still contains a space and
whose command name (case-insensitively) has no handler is skipped without
error and without any effect: the parse result equals that of the same sheet
with the line removed.  (The unamended claim is false for unknown one-token
lines, which raise `ValueError` at `line.split(' ', 1)` unpacking — see the
counterexample.) -/
theorem parse_unknown_cmd_skipped (l c a : String) (L1 L2 : List String)
    (hsplit : pySplit1 (pyStripWs l) = some (c, a))
    (hcmd : recognizedCmd (lowerStr c) = false) :
    parseLines (L1 ++ l :: L2) = parseLines (L1 ++ L2) := by
  unfold parseLines
  rw [runFrom_append, runFrom_append]
  cases h1 : runFrom pInit L1 with
  | error e => rfl
  | ok s' =>
    dsimp only
    have hstep := lineStep_unknown s' l c a hsplit hcmd
    show (match (match lineStep s' l with
        | .error e => .error e
        | .ok s₀ => runFrom s₀ L2) with
      | Except.error e => Except.error e
      | Except.ok s =>
        match postPass (tracksOf s) with
        | Except.error e => Except.error e
        | Except.ok ts => Except.ok (globalOf s, ts)) = _
    rw [hstep]
    rfl

/-- Counterexample to C9 as stated: the unknown-command line `"FOO"` (no
space) makes the whole parse raise `ValueError` instead of being logged and
skipped, while the same sheet without the line parses fine. -/
theorem parse_unknown_cmd_counterexample :
    parseLines ["FOO"] = .error PyErr.valueError ∧
      parseLines ([] : List String) = .ok (initGlobal, []) := by
  constructor
  · decide
  · decide

/-- Witness for the amended C9: inserting `"FOO bar"` into a valid sheet
leaves the parse result unchanged. -/
theorem parse_unknown_cmd_skipped_witness :
    parseLines (["PERFORMER \"A\""] ++ "FOO bar" ::
        ["TRACK 01 AUDIO", "INDEX 01 00:00:00"]) =
      parseLines (["PERFORMER \"A\""] ++ ["TRACK 01 AUDIO", "INDEX 01 00:00:00"]) := by
  exact parse_unknown_cmd_skipped "FOO bar" "FOO" "bar"
    ["PERFORMER \"A\""] ["TRACK 01 AUDIO", "INDEX 01 00:00:00"]
    (by decide) (by decide)

/-! ### Claim C7: malformed lines -/

/-- The malformed shapes named by the claim: a (non-blank) line with no
space-separated argument; an `INDEX` or `TRACK` line with too few tokens; an
`INDEX` line whose timestamp has a non-numeric colon group (one that `int()`
rejects). -/
def malformedLine (l : String) : Prop :=
  (pyStripWs l ≠ "" ∧ pySplit1 (pyStripWs l) = Option.none) ∨
  (∃ c a, pySplit1 (pyStripWs l) = some (c, a) ∧
    ((lowerStr c = "index" ∧ (pySplitWs a).length < 2) ∨
     (lowerStr c = "track" ∧ (pySplitWs a).length < 2) ∨
     (lowerStr c = "index" ∧ ∃ t, (pySplitWs a).get? 1 = some t ∧
       ∃ g ∈ pySplitOn ':' t, pyInt? g = Option.none)))

theorem sumChunks_bad (gs : List String) (i : Nat) (g : String)
    (hg : g ∈ gs) (hbad : pyInt? g = Option.none) :
    sumChunks gs i = .error PyErr.valueError := by
  induction gs generalizing i with
  | nil => simp at hg
  | cons g' rest ih =>
    unfold sumChunks
    rcases List.mem_cons.mp hg with hh | hh
    · rw [hh] at hbad
      rw [hbad]
    · cases hpi : pyInt? g' with
      | none => rfl
      | some v =>
        rw [ih (i + 1) hh]

theorem timestr_bad (t g : String) (hg : g ∈ pySplitOn ':' t)
    (hbad : pyInt? g = Option.none) :
    timestrToSamples t = .error PyErr.valueError := by
  have hne : pySplitOn ':' t ≠ [] := pySplitOn_ne_nil ':' t
  unfold timestrToSamples
  by_cases hdl : g ∈ (pySplitOn ':' t).dropLast
  · have hsec : timestrToSec t = .error PyErr.valueError := by
      unfold timestrToSec
      exact sumChunks_bad _ 0 g (List.mem_reverse.mpr hdl) hbad
    rw [hsec]
  · have hlast : g = (pySplitOn ':' t).getLast hne := by
      have hsplit := List.dropLast_append_getLast hne
      have := hg
      rw [← hsplit] at this
      rcases List.mem_append.mp this with hh | hh
      · exact absurd hh hdl
      · simpa using hh
    cases hsec : timestrToSec t with
    | error e =>
      have := sumChunks_err _ _ _ hsec
      rw [this]
    | ok secs =>
      have hgl : (pySplitOn ':' t).getLastD "" = g := by
        rw [List.getLastD_eq_getLast?, List.getLast?_eq_getLast _ hne, ← hlast]
        rfl
      rw [hgl, hbad]

theorem lineStep_malformed (s : PState) (l : String) (h : malformedLine l) :
    lineStep s l = .error PyErr.valueError ∨
      lineStep s l = .error PyErr.indexError := by
  rcases h with ⟨hne, hnosp⟩ | ⟨c, a, hsplit, hcase⟩
  · left
    unfold lineStep
    rw [if_neg hne, hnosp]
  · have hne : ¬ pyStripWs l = "" := by
      intro hh
      have hemp : pySplit1 "" = Option.none := by decide
      rw [hh, hemp] at hsplit
      cases hsplit
    rcases hcase with ⟨hc, hlen⟩ | ⟨hc, hlen⟩ | ⟨hc, t, ht, g, hg, hbad⟩
    · right
      unfold lineStep
      rw [if_neg hne, hsplit]
      dsimp only
      rw [if_neg (by rw [hc]; decide), if_neg (by rw [hc]; decide),
        if_neg (by rw [hc]; decide), if_neg (by rw [hc]; decide), if_pos hc]
      unfold cmdIndex
      rw [List.get?_eq_none.mpr (by omega)]
    · left
      unfold lineStep
      rw [if_neg hne, hsplit]
      dsimp only
      rw [if_neg (by rw [hc]; decide), if_neg (by rw [hc]; decide),
        if_neg (by rw [hc]; decide), if_neg (by rw [hc]; decide),
        if_neg (by rw [hc]; decide), if_pos hc]
      unfold cmdTrack
      cases hsp : pySplitWs a with
      | nil => rfl
      | cons x xs =>
        cases xs with
        | nil => rfl
        | cons x2 xs2 =>
          rw [hsp] at hlen
          simp at hlen
          omega
    · left
      unfold lineStep
      rw [if_neg hne, hsplit]
      dsimp only
      rw [if_neg (by rw [hc]; decide), if_neg (by rw [hc]; decide),
        if_neg (by rw [hc]; decide), if_neg (by rw [hc]; decide), if_pos hc]
      unfold cmdIndex
      rw [ht]
      dsimp only
      rw [timestr_bad t g hg hbad]

/-- Claim C7 (amended): a line with no space-separated argument, an `INDEX`
or `TRACK` line with too few tokens, or an `INDEX` timestamp with a
non-numeric group makes the whole parse fail — but with an uncaught Python
built-in `ValueError` or `IndexError`, not with a deflacue-defined error
(`cue.py` defines and raises no `FormatError`; its only package error is the
`DeflacueError` raised for undecodable input). -/
theorem parse_malformed_builtin_error (L1 : List String) (s : PState)
    (l : String) (L2 : List String)
    (hpre : runFrom pInit L1 = .ok s) (hbad : malformedLine l) :
    parseLines (L1 ++ l :: L2) = .error PyErr.valueError ∨
      parseLines (L1 ++ l :: L2) = .error PyErr.indexError := by
  have hstep := lineStep_malformed s l hbad
  have hrun : ∀ e, lineStep s l = .error e →
      parseLines (L1 ++ l :: L2) = .error e := by
    intro e he
    unfold parseLines
    rw [runFrom_append, hpre]
    dsimp only
    rw [runFrom_cons, he]
  rcases hstep with h | h
  · exact Or.inl (hrun _ h)
  · exact Or.inr (hrun _ h)

/-- Counterexample to C7 as stated: the malformed line `"PERFORMER"` (no
argument) fails the parse with the built-in `ValueError`, which is not a
deflacue-defined error type (no `FormatError` exists in the code). -/
theorem parse_malformed_counterexample :
    parseLines ["PERFORMER"] = .error PyErr.valueError ∧
      PyErr.valueError.isDeflacue = false := by
  constructor
  · decide
  · decide

/-- Witness for the amended C7 on the argument-less line `"TRACK"`. -/
theorem parse_malformed_builtin_error_witness :
    parseLines (["FILE \"img.flac\" WAVE"] ++ "TRACK" :: []) =
        .error PyErr.valueError ∨
      parseLines (["FILE \"img.flac\" WAVE"] ++ "TRACK" :: []) =
        .error PyErr.indexError := by
  exact parse_malformed_builtin_error ["FILE \"img.flac\" WAVE"]
    { store := [dictSet initGlobal "FILE" (PyVal.str "img.flac")],
      trackIds := [], currentId := 0 }
    "TRACK" []
    (by decide)
    (Or.inl ⟨by decide, by decide⟩)

/-! ### Claim C4: `cmd_track` deep-copies the global context -/

/-- A direct Python mutation of the record object stored at index `id`
(e.g. `record[k] = v` on the dictionary aliased there), outside the
parser's own command handlers. -/
def mutateField (s : PState) (id : Nat) (k : String) (v : PyVal) : PState :=
  { s with store := s.store.set id (dictSet (s.store.getD id emptyCtx) k v) }

/-- The lower-cased command name of a line, when the line is non-blank and
has a space-separated argument. -/
def lineCommand (l : String) : Option String :=
  if pyStripWs l = "" then Option.none
  else
    match pySplit1 (pyStripWs l) with
    | Option.none => Option.none
    | some (c, _) => some (lowerStr c)

theorem setCur_frame (s : PState) (cnew : Ctx) (id : Nat)
    (hne : id ≠ s.currentId) :
    (setCur s cnew).store.get? id = s.store.get? id ∧
    (setCur s cnew).store.length = s.store.length ∧
    (setCur s cnew).currentId = s.currentId := by
  refine ⟨?_, by simp [setCur], rfl⟩
  simp only [setCur, List.get?_eq_getElem?]
  rw [List.getElem?_set_ne (Ne.symm hne)]

theorem cmdRem_shape (s s' : PState) (a : String) (h : cmdRem s a = .ok s') :
    ∃ cnew, s' = setCur s cnew := by
  unfold cmdRem at h
  split at h
  · cases h
  · cases h
    exact ⟨_, rfl⟩

theorem cmdPerformer_shape (s s' : PState) (a : String)
    (h : cmdPerformer s a = .ok s') : ∃ cnew, s' = setCur s cnew := by
  unfold cmdPerformer at h
  cases h
  exact ⟨_, rfl⟩

theorem cmdTitle_shape (s s' : PState) (a : String)
    (h : cmdTitle s a = .ok s') : ∃ cnew, s' = setCur s cnew := by
  unfold cmdTitle at h
  split at h
  · cases h; exact ⟨_, rfl⟩
  · cases h; exact ⟨_, rfl⟩

theorem cmdFile_shape (s s' : PState) (a : String)
    (h : cmdFile s a = .ok s') : ∃ cnew, s' = setCur s cnew := by
  unfold cmdFile at h
  cases h
  exact ⟨_, rfl⟩

theorem cmdIndex_shape (s s' : PState) (a : String)
    (h : cmdIndex s a = .ok s') : ∃ cnew, s' = setCur s cnew := by
  unfold cmdIndex at h
  split at h
  · cases h
  · split at h
    · cases h
    · cases h
      exact ⟨_, rfl⟩

theorem cmdTrack_shape (s s' : PState) (a : String)
    (h : cmdTrack s a = .ok s') :
    ∃ n, s' =
      { store := s.store ++ [dictSet (globalOf s) "TRACK_NUM" (PyVal.int n)],
        trackIds := s.trackIds ++ [s.store.length],
        currentId := s.store.length } := by
  unfold cmdTrack at h
  split at h
  · split at h
    · cases h
    · cases h
      exact ⟨_, rfl⟩
  · cases h

theorem lineStep_shape (s s' : PState) (l : String) (h : lineStep s l = .ok s') :
    s' = s ∨ (∃ cnew, s' = setCur s cnew) ∨
    (∃ n, s' =
      { store := s.store ++ [dictSet (globalOf s) "TRACK_NUM" (PyVal.int n)],
        trackIds := s.trackIds ++ [s.store.length],
        currentId := s.store.length }) := by
  unfold lineStep at h
  dsimp only at h
  split at h
  · cases h; exact Or.inl rfl
  · split at h
    · cases h
    · split at h
      · exact Or.inr (Or.inl (cmdRem_shape _ _ _ h))
      · split at h
        · exact Or.inr (Or.inl (cmdPerformer_shape _ _ _ h))
        · split at h
          · exact Or.inr (Or.inl (cmdTitle_shape _ _ _ h))
          · split at h
            · exact Or.inr (Or.inl (cmdFile_shape _ _ _ h))
            · split at h
              · exact Or.inr (Or.inl (cmdIndex_shape _ _ _ h))
              · split at h
                · exact Or.inr (Or.inr (cmdTrack_shape _ _ _ h))
                · split at h
                  · cases h; exact Or.inl rfl
                  · cases h; exact Or.inl rfl

theorem lineStep_frame (s s' : PState) (l : String) (id : Nat)
    (h : lineStep s l = .ok s') (hlt : id < s.store.length)
    (hne : id ≠ s.currentId) :
    s'.store.get? id = s.store.get? id ∧ id < s'.store.length ∧
      id ≠ s'.currentId := by
  rcases lineStep_shape s s' l h with rfl | ⟨cnew, rfl⟩ | ⟨n, rfl⟩
  · exact ⟨rfl, hlt, hne⟩
  · obtain ⟨h1, h2, h3⟩ := setCur_frame s cnew id hne
    exact ⟨h1, by rw [h2]; exact hlt, by rw [h3]; exact hne⟩
  · refine ⟨?_, ?_, ?_⟩
    · simp only [List.get?_eq_getElem?]
      rw [List.getElem?_append_left hlt]
    · simp only [List.length_append, List.length_cons, List.length_nil]
      omega
    · intro hh
      rw [hh] at hlt
      exact lt_irrefl _ hlt

theorem lineStep_mono (s s' : PState) (l : String) (h : lineStep s l = .ok s') :
    s.store.length ≤ s'.store.length := by
  rcases lineStep_shape s s' l h with rfl | ⟨cnew, rfl⟩ | ⟨n, rfl⟩
  · exact le_refl _
  · simp [setCur]
  · simp

theorem runFrom_mono (s s' : PState) (L : List String)
    (h : runFrom s L = .ok s') : s.store.length ≤ s'.store.length := by
  induction L generalizing s with
  | nil => cases h; exact le_refl _
  | cons l ls ih =>
    rw [runFrom_cons] at h
    cases hstep : lineStep s l with
    | error e => rw [hstep] at h; cases h
    | ok s₀ =>
      rw [hstep] at h
      exact le_trans (lineStep_mono s s₀ l hstep) (ih s₀ h)

theorem runFrom_frame (s s' : PState) (L : List String) (id : Nat)
    (h : runFrom s L = .ok s') (hlt : id < s.store.length)
    (hne : id ≠ s.currentId) :
    s'.store.get? id = s.store.get? id := by
  induction L generalizing s with
  | nil => cases h; rfl
  | cons l ls ih =>
    rw [runFrom_cons] at h
    cases hstep : lineStep s l with
    | error e => rw [hstep] at h; cases h
    | ok s₀ =>
      rw [hstep] at h
      obtain ⟨h1, h2, h3⟩ := lineStep_frame s s₀ l id hstep hlt hne
      rw [ih s₀ h h2 h3, h1]

/-- Claim C4: a `TRACK` command allocates a fresh record that is a deep copy
of the global record at that moment (plus `TRACK_NUM`); afterwards, a direct
mutation of the global record, and any further parsing once the current
context has moved to a later track, leave every field of the already-opened
track's record unchanged. -/
theorem cmd_track_deepcopy (s s₁ : PState) (l : String)
    (h0 : 0 < s.store.length)
    (hcmd : lineCommand l = some "track")
    (hstep : lineStep s l = .ok s₁) :
    (∃ n, s₁.store.get? s.store.length =
        some (dictSet (globalOf s) "TRACK_NUM" (PyVal.int n))) ∧
    s₁.currentId = s.store.length ∧
    (∀ k v, (mutateField s₁ 0 k v).store.get? s.store.length =
        s₁.store.get? s.store.length) ∧
    (∀ L s₂, runFrom s₁ L = .ok s₂ → s₂.currentId ≠ s.store.length →
      ∀ Lmore s₃, runFrom s₂ Lmore = .ok s₃ →
        s₃.store.get? s.store.length = s₂.store.get? s.store.length) := by
  obtain ⟨c, a, hne', heq, hc⟩ :
      ∃ c a, ¬ pyStripWs l = "" ∧ pySplit1 (pyStripWs l) = some (c, a) ∧
        lowerStr c = "track" := by
    unfold lineCommand at hcmd
    by_cases hne' : pyStripWs l = ""
    · rw [if_pos hne'] at hcmd
      cases hcmd
    · rw [if_neg hne'] at hcmd
      cases heq : pySplit1 (pyStripWs l) with
      | none => rw [heq] at hcmd; cases hcmd
      | some pr =>
        rw [heq] at hcmd
        obtain ⟨c, a⟩ := pr
        dsimp only at hcmd
        injection hcmd with hh
        exact ⟨c, a, hne', rfl, hh⟩
  have htrk : cmdTrack s a = .ok s₁ := by
    unfold lineStep at hstep
    rw [if_neg hne', heq] at hstep
    dsimp only at hstep
    rw [if_neg (by rw [hc]; decide), if_neg (by rw [hc]; decide),
      if_neg (by rw [hc]; decide), if_neg (by rw [hc]; decide),
      if_neg (by rw [hc]; decide), if_pos hc] at hstep
    exact hstep
  obtain ⟨n, rfl⟩ := cmdTrack_shape _ _ _ htrk
  refine ⟨⟨n, ?_⟩, rfl, ?_, ?_⟩
  · simp only [List.get?_eq_getElem?]
    rw [List.getElem?_concat_length]
  · intro k v
    simp only [mutateField, List.get?_eq_getElem?]
    rw [List.getElem?_set_ne (by omega)]
  · intro L s₂ hL hcur Lmore s₃ hLmore
    have hlen : s.store.length <
        (s.store ++ [dictSet (globalOf s) "TRACK_NUM" (PyVal.int n)]).length := by
      simp
    have hlt₂ : s.store.length < s₂.store.length :=
      lt_of_lt_of_le hlen (runFrom_mono _ _ _ hL)
    exact runFrom_frame s₂ s₃ Lmore s.store.length hLmore hlt₂ (Ne.symm hcur)

/-- State after `TRACK 01 AUDIO` from the initial state. -/
def c4AfterTrack1 : PState :=
  { store := [initGlobal, dictSet initGlobal "TRACK_NUM" (PyVal.int 1)],
    trackIds := [1], currentId := 1 }

/-- State after additionally `TRACK 02 AUDIO`. -/
def c4AfterTrack2 : PState :=
  { store := [initGlobal, dictSet initGlobal "TRACK_NUM" (PyVal.int 1),
      dictSet initGlobal "TRACK_NUM" (PyVal.int 2)],
    trackIds := [1, 2], currentId := 2 }

/-- State after additionally setting the second track's title. -/
def c4AfterTitle : PState :=
  { store := [initGlobal, dictSet initGlobal "TRACK_NUM" (PyVal.int 1),
      dictSet (dictSet initGlobal "TRACK_NUM" (PyVal.int 2)) "TITLE"
        (PyVal.str "Second Song")],
    trackIds := [1, 2], currentId := 2 }

/-- Witness for C4: after `TRACK 01`, opening `TRACK 02` and then mutating
its title leaves track 1's record untouched. -/
theorem cmd_track_deepcopy_witness :
    c4AfterTitle.store.get? 1 = c4AfterTrack2.store.get? 1 := by
  exact (cmd_track_deepcopy pInit c4AfterTrack1
      "TRACK 01 AUDIO" (by decide) (by decide) (by decide)).2.2.2
    ["TRACK 02 AUDIO"] c4AfterTrack2 (by decide) (by decide)
    ["TITLE \"Second Song\""] c4AfterTitle (by decide)

/-! ### The extraction planner (`deflacue.py`)

`Deflacue` is modelled over an explicit world: a set of existing filesystem
paths (consulted by `os.path.exists` and mutated by `makedirs`/`remove`) and
a trace of the destructive operations performed (directory creation, external
`sox` command execution, file removal) plus the `chdir` calls of `do`.  The
external tool's own writes are outside the model; an `Env` says which
`makedirs` calls fail with `OSError` and which `sox` commands exit
non-zero. -/

/-- Destructive filesystem / process effects performed by the planner. -/
inductive Eff where
  | chdir (p : String)
  | mkdir (p : String)
  | sox (command : String)
  | removeFile (p : String)
deriving DecidableEq, Repr

/-- Environment: which `makedirs` calls raise `OSError`, and which `sox`
invocations return a non-zero exit code. -/
structure Env where
  mkdirFails : List String
  soxFails : List String
deriving DecidableEq, Repr

/-- World state threaded through the planner: the existing paths and the
effect trace (oldest first). -/
structure World where
  fs : List String
  effs : List Eff
deriving DecidableEq, Repr

/-- Decimal digit characters. -/
def digitChar : Nat → Char
  | 0 => '0' | 1 => '1' | 2 => '2' | 3 => '3' | 4 => '4'
  | 5 => '5' | 6 => '6' | 7 => '7' | 8 => '8' | 9 => '9'
  | _ => '*'

/-- Digits of `n`, most significant first (`fuel`-bounded structural
recursion; `fuel := n + 1` always suffices). -/
def natReprAux : Nat → Nat → List Char
  | 0, _ => []
  | fuel + 1, n =>
    if n < 10 then [digitChar n]
    else natReprAux fuel (n / 10) ++ [digitChar (n % 10)]

/-- Python `str(n)` for a natural number. -/
def natRepr (n : Nat) : String := String.mk (natReprAux (n + 1) n)

/-- Python `str(i)` for an integer. -/
def intRepr : Int → String
  | .ofNat n => natRepr n
  | .negSucc n => "-" ++ natRepr (n + 1)

/-- Python `'%s' % v` string formatting of a value (`None` prints as
`"None"`). -/
def pyValFmt : PyVal → String
  | .str s => s
  | .int n => intRepr n
  | PyVal.none => "None"

/-- `.replace` on a value: `AttributeError` unless it is a string. -/
def pyValStrE : PyVal → Except PyErr String
  | .str s => .ok s
  | _ => .error .attributeError

/-- Integer arithmetic on a value: `TypeError` unless it is an int. -/
def pyValIntE : PyVal → Except PyErr Int
  | .int n => .ok n
  | _ => .error .typeError

/-- `os.path.join` of a directory and a relative component. -/
def pyJoin (a b : String) : String := a ++ "/" ++ b

/-- `os.path.join` with a component that is a parsed value: `TypeError`
unless it is a string. -/
def pyJoinV (base : String) (v : PyVal) : Except PyErr String :=
  match v with
  | .str s => .ok (pyJoin base s)
  | _ => .error .typeError

/-- Python `s.rjust(width, c)`. -/
def pyRjust (s : String) (width : Nat) (c : Char) : String :=
  if s.length < width then String.mk (List.replicate (width - s.length) c) ++ s
  else s

/-- Python `s.replace('/', '')`. -/
def pyRemoveSlashes (s : String) : String :=
  String.mk (s.data.filter (fun ch => ¬ ch = '/'))

/-- `os.path.split(p)[1]`. -/
def pyBasename (p : String) : String := (pySplitOn '/' p).getLastD p

/-- `_COMMENTS_CUE_TO_VORBIS`, in dict insertion order. -/
def commentsCueToVorbis : List (String × String) :=
  [("TRACK_NUM", "TRACKNUMBER"), ("TITLE", "TITLE"), ("PERFORMER", "ARTIST"),
   ("ALBUM", "ALBUM"), ("GENRE", "GENRE"), ("DATE", "DATE")]

/-- The `--add-comment` arguments of `_sox_extract_audio`: one per mapped
metadata key that is present and not `None`. -/
def addComments (metadata : Ctx) : List String :=
  commentsCueToVorbis.filterMap (fun kv =>
    match dictGet? metadata kv.fst with
    | Option.none => Option.none
    | some v =>
      if v = PyVal.none then Option.none
      else some ("--add-comment=\"" ++ kv.snd ++ "=" ++ pyValFmt v ++ "\""))

/-- The `chunk_length_samples` string: empty when there is no end position,
otherwise `str(pos_end - pos_start) + "s"` (`TypeError` when the positions
are not both ints). -/
def chunkLength (posStart posEnd : PyVal) : Except PyErr String :=
  if posEnd = PyVal.none then .ok ""
  else
    match pyValIntE posEnd with
    | .error e => .error e
    | .ok e =>
      match pyValIntE posStart with
      | .error e' => .error e'
      | .ok st => .ok (intRepr (e - st) ++ "s")

/-- The shell command built by `_sox_extract_audio`. -/
def soxCommand (sourceFile : String) (posStart : PyVal) (chunk : String)
    (targetFile : String) (metadata : Ctx) : String :=
  "sox -V1 \"" ++ sourceFile ++ "\" --comment=\"\" " ++
    joinWith " " (addComments metadata) ++ " \"" ++ targetFile ++ "\" trim " ++
    pyValFmt posStart ++ "s " ++ chunk

/-- `_sox_extract_audio`: build the command, and unless in dry-run mode run
it through `_process_command` (recording the execution and returning its exit
code); in dry-run mode return `None` without executing anything. -/
def soxExtractAudio (env : Env) (dryRun : Bool) (w : World)
    (sourceFile : String) (posStart posEnd : PyVal) (targetFile : String)
    (metadata : Ctx) : World × Except PyErr (Option Int) :=
  match chunkLength posStart posEnd with
  | .error e => (w, .error e)
  | .ok chunk =>
    let command := soxCommand sourceFile posStart chunk targetFile metadata
    if dryRun then (w, .ok Option.none)
    else
      ({ w with effs := w.effs ++ [Eff.sox command] },
       .ok (some (if command ∈ env.soxFails then 1 else 0)))

/-- `_create_target_path`: a no-op when the path exists or in dry-run mode;
otherwise `makedirs`, converting `OSError` into `DeflacueError`. -/
def createTargetPath (env : Env) (dryRun : Bool) (w : World) (path : String) :
    World × Except PyErr Unit :=
  if path ∈ w.fs || dryRun then (w, .ok ())
  else if path ∈ env.mkdirFails then (w, .error .deflacueError)
  else ({ fs := path :: w.fs, effs := w.effs ++ [Eff.mkdir path] }, .ok ())

/-- The per-track loop of `_process_cue`: compute the zero-padded number and
the slash-stripped title filename, extract with SoX, and raise
`DeflacueError` on a non-zero exit status. -/
def extractTracks (env : Env) (dryRun : Bool) (bundlePath : String)
    (tracksCount : Nat) (w : World) : List Ctx → World × Except PyErr Unit
  | [] => (w, .ok ())
  | track :: rest =>
    match dictGetE track "TRACK_NUM" with
    | .error e => (w, .error e)
    | .ok numV =>
      let trackNum := pyRjust (pyValFmt numV) (natRepr tracksCount).length '0'
      match dictGetE track "TITLE" with
      | .error e => (w, .error e)
      | .ok titleV =>
        match pyValStrE titleV with
        | .error e => (w, .error e)
        | .ok titleS =>
          let filename := trackNum ++ " - " ++ pyRemoveSlashes titleS ++ ".flac"
          match dictGetE track "FILE" with
          | .error e => (w, .error e)
          | .ok srcV =>
            match dictGetE track "POS_START_SAMPLES" with
            | .error e => (w, .error e)
            | .ok stV =>
              match dictGetE track "POS_END_SAMPLES" with
              | .error e => (w, .error e)
              | .ok enV =>
                match soxExtractAudio env dryRun w (pyValFmt srcV) stV enV
                    (pyJoin bundlePath filename) track with
                | (w', .error e) => (w', .error e)
                | (w', .ok Option.none) =>
                  extractTracks env dryRun bundlePath tracksCount w' rest
                | (w', .ok (some rc)) =>
                  if rc ≠ 0 then (w', .error .deflacueError)
                  else extractTracks env dryRun bundlePath tracksCount w' rest

/-- `_process_cue` on already-read sheet lines: parse, skip the sheet when
the referenced source audio file does not exist, otherwise compute the bundle
directory (created unless in-place), extract every track, and in-place mode
finally `os.remove` the source audio file named by the sheet's `FILE` field —
unconditionally, even in dry-run mode. -/
def processCue (env : Env) (dryRun : Bool) (w : World) (cueLines : List String)
    (cueFilepath targetPath : String) (inPlace : Bool) :
    World × Except PyErr Unit :=
  match parseLines cueLines with
  | .error e => (w, .error e)
  | .ok (cdInfo, tracks) =>
    match dictGetE cdInfo "FILE" with
    | .error e => (w, .error e)
    | .ok fileV =>
      match fileV with
      | PyVal.str f =>
        if f ∈ w.fs then
          match dictGetE cdInfo "ALBUM" with
          | .error e => (w, .error e)
          | .ok albumV =>
            match dictGetE cdInfo "DATE" with
            | .error e => (w, .error e)
            | .ok dateV =>
              let titleV : PyVal :=
                if dateV = PyVal.none then albumV
                else PyVal.str (pyValFmt dateV ++ " - " ++ pyValFmt albumV)
              let bundleRes : World × Except PyErr String :=
                if inPlace then (w, .ok targetPath)
                else
                  match dictGetE cdInfo "PERFORMER" with
                  | .error e => (w, .error e)
                  | .ok perfV =>
                    match pyJoinV targetPath perfV with
                    | .error e => (w, .error e)
                    | .ok base =>
                      match pyJoinV base titleV with
                      | .error e => (w, .error e)
                      | .ok bundle =>
                        match createTargetPath env dryRun w bundle with
                        | (w', .error e) => (w', .error e)
                        | (w', .ok _) => (w', .ok bundle)
              match bundleRes with
              | (w₁, .error e) => (w₁, .error e)
              | (w₁, .ok bundlePath) =>
                match extractTracks env dryRun bundlePath tracks.length w₁
                    tracks with
                | (w₂, .error e) => (w₂, .error e)
                | (w₂, .ok _) =>
                  if inPlace then
                    if f ∈ w₂.fs then
                      ({ fs := w₂.fs.erase f,
                         effs := w₂.effs ++ [Eff.removeFile f] }, .ok ())
                    else (w₂, .error .osError)
                  else (w₂, .ok ())
        else (w, .ok ())
      | _ => (w, .error .typeError)

/-- The inner loop of `Deflacue.do` over the sheets of one directory: each
sheet runs under `try/except DeflacueError`, which logs and continues when
`in_place` is set and re-raises otherwise; any non-`DeflacueError` exception
always propagates. -/
def doCueLoop (env : Env) (dryRun : Bool) (inPlace : Bool)
    (targetPath path : String) (w : World) :
    List (String × List String) → World × Except PyErr Unit
  | [] => (w, .ok ())
  | (cueName, cueLines) :: rest =>
    match processCue env dryRun w cueLines (pyJoin path cueName) targetPath
        inPlace with
    | (w', .ok _) => doCueLoop env dryRun inPlace targetPath path w' rest
    | (w', .error PyErr.deflacueError) =>
      if inPlace then doCueLoop env dryRun inPlace targetPath path w' rest
      else (w', .error PyErr.deflacueError)
    | (w', .error e) => (w', .error e)

/-- The outer loop of `Deflacue.do` over source directories: `chdir` into the
directory, compute the target path (`<path>/deflacue` when no destination is
given, `<dest>/<basename path>` otherwise, the directory itself in-place),
create it unless in-place, then process the directory's sheets. -/
def doPathLoop (env : Env) (dryRun : Bool) (inPlace : Bool)
    (destPath : Option String) (w : World) :
    List (String × List (String × List String)) → World × Except PyErr Unit
  | [] => (w, .ok ())
  | (path, cues) :: rest =>
    let w₀ : World := { w with effs := w.effs ++ [Eff.chdir path] }
    let targetPath :=
      if inPlace then path
      else
        match destPath with
        | Option.none => pyJoin path "deflacue"
        | some d => pyJoin d (pyBasename path)
    match (if inPlace then (w₀, Except.ok ())
           else createTargetPath env dryRun w₀ targetPath) with
    | (w₁, .error e) => (w₁, .error e)
    | (w₁, .ok _) =>
      match doCueLoop env dryRun inPlace targetPath path w₁ cues with
      | (w₂, .error e) => (w₂, .error e)
      | (w₂, .ok _) => doPathLoop env dryRun inPlace destPath w₂ rest

/-- `Deflacue.do`: optionally pre-create the destination root, walk the
directories, and only after the whole loop finishes `chdir` back to the
initial working directory.  There is no `try/finally`: an error propagating
out of the loop skips the final `chdir`. -/
def doRun (env : Env) (dryRun : Bool) (dirInitial : String) (w : World)
    (destPath : Option String) (inPlace : Bool)
    (batch : List (String × List (String × List String))) :
    World × Except PyErr Unit :=
  match (match destPath with
         | some d =>
           if ¬ inPlace ∧ ¬ d ∈ w.fs then createTargetPath env dryRun w d
           else (w, Except.ok ())
         | Option.none => (w, Except.ok ())) with
  | (w₀, .error e) => (w₀, .error e)
  | (w₀, .ok _) =>
    match doPathLoop env dryRun inPlace destPath w₀ batch with
    | (w₁, .error e) => (w₁, .error e)
    | (w₁, .ok _) =>
      ({ w₁ with effs := w₁.effs ++ [Eff.chdir dirInitial] }, .ok ())

/-- The `chdir` targets of an effect trace, in order. -/
def chdirs (effs : List Eff) : List String :=
  effs.filterMap (fun e =>
    match e with
    | Eff.chdir p => some p
    | _ => Option.none)

/-- The process's working directory after the trace: the last `chdir` target,
or the initial directory when none happened. -/
def finalCwd (initial : String) (effs : List Eff) : String :=
  (chdirs effs).getLastD initial

/-! ### Claims C1, C5, C6, C8: planner behavior -/

/-- A valid one-track sheet whose audio image is `img.flac`. -/
def goodSheet : List String :=
  ["FILE \"img.flac\" WAVE", "TRACK 01 AUDIO", "TITLE \"Song\"",
   "INDEX 01 00:00:00"]

/-- A sheet identical to `goodSheet` except that its audio image
`missing.flac` does not exist. -/
def missingSheet : List String :=
  ["FILE \"missing.flac\" WAVE", "TRACK 01 AUDIO", "TITLE \"Song\"",
   "INDEX 01 00:00:00"]

/-- An environment in which every `makedirs` and every `sox` call
succeeds. -/
def emptyEnv : Env := { mkdirFails := [], soxFails := [] }

theorem soxExtractAudio_no_remove (env : Env) (dryRun : Bool) (w : World)
    (srcS : String) (stV enV : PyVal) (tgt : String) (meta : Ctx) (p : String)
    (h : Eff.removeFile p ∈
      (soxExtractAudio env dryRun w srcS stV enV tgt meta).fst.effs) :
    Eff.removeFile p ∈ w.effs := by
  unfold soxExtractAudio at h
  split at h
  · exact h
  · split at h
    · exact h
    · simp only [List.mem_append] at h
      rcases h with h | h
      · exact h
      · simp at h

theorem extractTracks_no_remove (env : Env) (dryRun : Bool) (b : String)
    (c : Nat) (ts : List Ctx) : ∀ (w : World) (p : String),
    Eff.removeFile p ∈ (extractTracks env dryRun b c w ts).fst.effs →
    Eff.removeFile p ∈ w.effs := by
  induction ts with
  | nil => intro w p h; exact h
  | cons t rest ih =>
    intro w p h
    unfold extractTracks at h
    dsimp only at h
    split at h
    · exact h
    · split at h
      · exact h
      · split at h
        · exact h
        · split at h
          · exact h
          · split at h
            · exact h
            · split at h
              · exact h
              · split at h
                · rename_i w' e heq
                  have := soxExtractAudio_no_remove env dryRun w _ _ _ _ _ p
                    (by rw [heq]; exact h)
                  exact this
                · rename_i w' heq
                  have hmem := ih w' p h
                  exact soxExtractAudio_no_remove env dryRun w _ _ _ _ _ p
                    (by rw [heq]; exact hmem)
                · rename_i w' rc heq
                  split at h
                  · have := soxExtractAudio_no_remove env dryRun w _ _ _ _ _ p
                      (by rw [heq]; exact h)
                    exact this
                  · have hmem := ih w' p h
                    exact soxExtractAudio_no_remove env dryRun w _ _ _ _ _ p
                      (by rw [heq]; exact hmem)

/-- Claim C5 (amended): after a fully successful in-place `_process_cue` run
whose sheet's source audio file exists, the one and only file removed is the
source audio file named by the sheet's `FILE` field — not the `.cue` sheet
file itself (`remove(cd_info['FILE'])`). -/
theorem inplace_removes_source_audio (env : Env) (dryRun : Bool)
    (fs : List String) (cueLines : List String) (cueFilepath targetPath : String)
    (g : Ctx) (ts : List Ctx) (f : String)
    (hp : parseLines cueLines = .ok (g, ts))
    (hf : dictGet? g "FILE" = some (PyVal.str f))
    (hex : f ∈ fs)
    (hr : (processCue env dryRun ⟨fs, []⟩ cueLines cueFilepath targetPath
      true).snd = .ok ()) :
    Eff.removeFile f ∈
      (processCue env dryRun ⟨fs, []⟩ cueLines cueFilepath targetPath
        true).fst.effs ∧
    ∀ p, Eff.removeFile p ∈
        (processCue env dryRun ⟨fs, []⟩ cueLines cueFilepath targetPath
          true).fst.effs → p = f := by
  have hfe : dictGetE g "FILE" = .ok (PyVal.str f) := by
    unfold dictGetE
    rw [hf]
  unfold processCue at hr ⊢
  rw [hp] at hr ⊢
  dsimp only at hr ⊢
  rw [hfe] at hr ⊢
  dsimp only at hr ⊢
  rw [if_pos hex] at hr ⊢
  cases hA : dictGetE g "ALBUM" with
  | error e => rw [hA] at hr; dsimp only at hr; cases hr
  | ok albumV =>
    rw [hA] at hr
    dsimp only at hr ⊢
    cases hD : dictGetE g "DATE" with
    | error e => rw [hD] at hr; dsimp only at hr; cases hr
    | ok dateV =>
      rw [hD] at hr
      dsimp only at hr ⊢
      simp only [if_true] at hr ⊢
      cases hET : extractTracks env dryRun targetPath ts.length
          ⟨fs, []⟩ ts with
      | mk w₂ r₂ =>
        rw [hET] at hr
        cases r₂ with
        | error e => dsimp only at hr; cases hr
        | ok u =>
          dsimp only at hr ⊢
          by_cases hm : f ∈ w₂.fs
          · rw [if_pos hm] at hr ⊢
            refine ⟨by simp, ?_⟩
            intro p hpmem
            simp only [List.mem_append] at hpmem
            rcases hpmem with hpmem | hpmem
            · have := extractTracks_no_remove env dryRun targetPath ts.length
                ts ⟨fs, []⟩ p (by rw [hET]; exact hpmem)
              simp at this
            · simpa using hpmem
          · rw [if_neg hm] at hr
            dsimp only at hr
            cases hr

/-- Counterexample to C5 as stated: a successful in-place run on a concrete
sheet removes the audio image `img.flac`, and does not remove the sheet file
`/d1/a.cue` — the claim says the sheet file itself is deleted. -/
theorem inplace_removes_cue_counterexample :
    (processCue emptyEnv false { fs := ["img.flac"], effs := [] } goodSheet
        "/d1/a.cue" "/d1" true).snd = .ok () ∧
    Eff.removeFile "img.flac" ∈
      (processCue emptyEnv false { fs := ["img.flac"], effs := [] } goodSheet
        "/d1/a.cue" "/d1" true).fst.effs ∧
    ¬ Eff.removeFile "/d1/a.cue" ∈
      (processCue emptyEnv false { fs := ["img.flac"], effs := [] } goodSheet
        "/d1/a.cue" "/d1" true).fst.effs := by
  refine ⟨by decide, by decide, by decide⟩

/-- The global record of `goodSheet` after parsing. -/
def goodSheetGlobal : Ctx :=
  [("PERFORMER", PyVal.str "Unknown"), ("SONGWRITER", PyVal.none),
   ("ALBUM", PyVal.str "Unknown"), ("GENRE", PyVal.str "Unknown"),
   ("DATE", PyVal.none), ("FILE", PyVal.str "img.flac"),
   ("COMMENT", PyVal.none)]

/-- The single track record of `goodSheet` after parsing. -/
def goodSheetTracks : List Ctx :=
  [[("PERFORMER", PyVal.str "Unknown"), ("SONGWRITER", PyVal.none),
    ("ALBUM", PyVal.str "Unknown"), ("GENRE", PyVal.str "Unknown"),
    ("DATE", PyVal.none), ("FILE", PyVal.str "img.flac"),
    ("COMMENT", PyVal.none), ("TRACK_NUM", PyVal.int 1),
    ("TITLE", PyVal.str "Song"), ("INDEX", PyVal.str "00:00:00"),
    ("POS_START_SAMPLES", PyVal.int 0), ("POS_END_SAMPLES", PyVal.none)]]

/-- Witness for the amended C5 at the same concrete sheet. -/
theorem inplace_removes_source_audio_witness :
    Eff.removeFile "img.flac" ∈
      (processCue emptyEnv false ⟨["img.flac"], []⟩ goodSheet "/d1/a.cue"
        "/d1" true).fst.effs := by
  exact (inplace_removes_source_audio emptyEnv false ["img.flac"] goodSheet
    "/d1/a.cue" "/d1" goodSheetGlobal goodSheetTracks "img.flac" (by decide)
    (by decide) (by decide) (by decide)).1

theorem finalCwd_concat_chdir (i : String) (xs : List Eff) (p : String) :
    finalCwd i (xs ++ [Eff.chdir p]) = p := by
  unfold finalCwd chdirs
  rw [List.filterMap_append]
  simp [List.getLastD_eq_getLast?, List.getLast?_concat]

/-- Claim C6 (amended): when `Deflacue.do` completes without a propagated
error, the final `chdir(dir_initial)` restores the working directory.  (On an
early abort the restoring `chdir` is skipped — there is no `try/finally` —
see the counterexample.) -/
theorem do_restores_cwd_on_success (env : Env) (dryRun : Bool)
    (dirInitial : String) (w : World) (destPath : Option String)
    (inPlace : Bool) (batch : List (String × List (String × List String)))
    (h : (doRun env dryRun dirInitial w destPath inPlace batch).snd = .ok ()) :
    finalCwd dirInitial
      (doRun env dryRun dirInitial w destPath inPlace batch).fst.effs =
      dirInitial := by
  unfold doRun at h ⊢
  cases hpre : (match destPath with
      | some d =>
        if ¬ inPlace ∧ ¬ d ∈ w.fs then createTargetPath env dryRun w d
        else (w, Except.ok ())
      | Option.none => (w, Except.ok ())) with
  | mk w₀ r₀ =>
    rw [hpre] at h
    cases r₀ with
    | error e => cases h
    | ok u =>
      dsimp only at h ⊢
      cases hloop : doPathLoop env dryRun inPlace destPath w₀ batch with
      | mk w₁ r₁ =>
        rw [hloop] at h
        cases r₁ with
        | error e => cases h
        | ok u₁ =>
          dsimp only
          exact finalCwd_concat_chdir dirInitial w₁.effs dirInitial

/-- An environment in which creating `/d1/deflacue` fails with `OSError`. -/
def mkdirFailEnv : Env := { mkdirFails := ["/d1/deflacue"], soxFails := [] }

/-- Counterexample to C6 as stated: when the batch aborts early (here the
target-directory creation raises `DeflacueError` with `in_place` unset), the
working directory is left at the last source directory `/d1`, not restored to
the initial one — `do` has no `try/finally` around the loop. -/
theorem do_abort_cwd_counterexample :
    (doRun mkdirFailEnv false "/init" { fs := [], effs := [] } Option.none
        false [("/d1", [("a.cue", goodSheet)])]).snd =
      .error PyErr.deflacueError ∧
    finalCwd "/init"
      (doRun mkdirFailEnv false "/init" { fs := [], effs := [] } Option.none
        false [("/d1", [("a.cue", goodSheet)])]).fst.effs = "/d1" ∧
    ¬ ("/d1" = "/init") := by
  refine ⟨by decide, by decide, by decide⟩

/-- Witness for the amended C6 on a concrete successful batch. -/
theorem do_restores_cwd_on_success_witness :
    finalCwd "/init"
      (doRun emptyEnv false "/init" { fs := ["img.flac"], effs := [] }
        Option.none false [("/d1", [("b.cue", goodSheet)])]).fst.effs =
      "/init" := by
  exact do_restores_cwd_on_success emptyEnv false "/init"
    { fs := ["img.flac"], effs := [] } Option.none false
    [("/d1", [("b.cue", goodSheet)])] (by decide)

/-- Claim C8 (code bug): in dry-run in-place mode, `_process_cue` still
executes `remove(cd_info['FILE'])` — the run reports success, performs no
directory creation and no `sox` execution, yet deletes the source audio file
from the filesystem, contradicting the class docstring ("no changes are
written to filesystem" in dry run). -/
theorem dry_run_inplace_still_removes :
    (processCue emptyEnv true { fs := ["img.flac"], effs := [] } goodSheet
        "/d1/a.cue" "/d1" true).snd = .ok () ∧
    Eff.removeFile "img.flac" ∈
      (processCue emptyEnv true { fs := ["img.flac"], effs := [] } goodSheet
        "/d1/a.cue" "/d1" true).fst.effs ∧
    (processCue emptyEnv true { fs := ["img.flac"], effs := [] } goodSheet
        "/d1/a.cue" "/d1" true).fst.fs = [] := by
  refine ⟨by decide, by decide, by decide⟩

/-- The C1 batch: one directory with a sheet whose audio image is missing,
followed by a valid sheet. -/
def c1Batch : List (String × List (String × List String)) :=
  [("/d1", [("a.cue", missingSheet), ("b.cue", goodSheet)])]

/-- Claim C1 (code bug): with `in_place` unset — the configuration the claim
calls the re-raising default — a sheet whose source audio file is missing is
logged and skipped rather than aborting: the batch finishes with `ok` and the
following sheet is still extracted (a `sox` execution is present in the
trace).  `do` has no skip-errors parameter at all; its `except DeflacueError`
branch re-raises precisely when `in_place` is unset, and `script.py` passes
`skip_errors=` to `do()`, which would raise `TypeError`. -/
theorem missing_source_skipped_no_abort :
    (doRun emptyEnv false "/init" { fs := ["img.flac"], effs := [] }
        Option.none false c1Batch).snd = .ok () ∧
    ((doRun emptyEnv false "/init" { fs := ["img.flac"], effs := [] }
        Option.none false c1Batch).fst.effs.any
      (fun e => match e with
        | Eff.sox _ => true
        | _ => false)) = true := by
  refine ⟨by decide, by decide⟩
